import Mathlib

/-!
Verification of the timeline event ingestion and deduplication engine
(`timeline_ultra.py`, `memory/timeline_memory.py`, and the fallback
free-text extractor in `timeline_header.py`).

Strings are modelled as lists of unicode characters (`Str`), Python
`datetime` values as a record of calendar/time fields (`PyDateTime`),
and Python `float` scores as rationals (the scorer only adds the
constants 0.4, 0.3, 0.2 and takes `min` with 1.0, operations on which
the rationals model faithfully for the stated properties).
-/

namespace Timeline

abbrev Str := List Char

/-- Python whitespace class `\s` (ASCII part: space, tab, newline,
carriage return, vertical tab, form feed). Used both by `str.strip`
and by the regex scanners. -/
def pyWs (c : Char) : Bool :=
  c = ' ' || c = '\t' || c = '\n' || c = '\r' || c = Char.ofNat 11 || c = Char.ofNat 12

/-- `str.strip()`: drop leading and trailing whitespace. -/
def pyStrip (s : Str) : Str :=
  ((s.dropWhile pyWs).reverse.dropWhile pyWs).reverse

/-- `str.lower()` on one character, restricted to ASCII letters and the
Latin-1 uppercase range (which covers the accented French capitals such
as `É`, `À`); other characters are returned unchanged. -/
def pyLowerChar (c : Char) : Char :=
  if 65 ≤ c.toNat ∧ c.toNat ≤ 90 then Char.ofNat (c.toNat + 32)
  else if 0xC0 ≤ c.toNat ∧ c.toNat ≤ 0xDE ∧ c.toNat ≠ 0xD7 then Char.ofNat (c.toNat + 32)
  else c

/-- `str.lower()`. -/
def pyLower (s : Str) : Str := s.map pyLowerChar

/-- Python's `needle in haystack` substring test. -/
def containsSub (needle : Str) : Str → Bool
  | [] => needle.isEmpty
  | c :: t => needle.isPrefixOf (c :: t) || containsSub needle t

/-- Python `datetime.datetime` (microseconds are not modelled; the code
under verification never constructs them). -/
structure PyDateTime where
  year : Nat
  month : Nat
  day : Nat
  hour : Nat
  minute : Nat
  second : Nat
deriving DecidableEq

/-- Order key for datetimes.  On field-valid datetimes (month ≤ 12,
day ≤ 31, hour < 24, minute < 60, second < 60) this is exactly the
lexicographic comparison Python uses for `datetime` values. -/
def PyDateTime.toNat (d : PyDateTime) : Nat :=
  ((((d.year * 13 + d.month) * 32 + d.day) * 24 + d.hour) * 60 + d.minute) * 60 + d.second

/-- Boolean `a <= b` on datetimes. -/
def dateLE (a b : PyDateTime) : Bool := decide (a.toNat ≤ b.toNat)

/-- `datetime.date()`: the calendar-day part, used by the fingerprint. -/
def dateOnly (d : PyDateTime) : Nat × Nat × Nat := (d.year, d.month, d.day)

def isLeapYear (y : Nat) : Bool :=
  y % 4 = 0 && (y % 100 ≠ 0 || y % 400 = 0)

def daysInMonth (y m : Nat) : Nat :=
  if m = 2 then (if isLeapYear y then 29 else 28)
  else if m = 4 ∨ m = 6 ∨ m = 9 ∨ m = 11 then 30
  else 31

/-- The `datetime(...)` constructor: yields `none` exactly when Python
raises `ValueError` (out-of-range field). -/
def mkDateTime (y mo d h mi s : Nat) : Option PyDateTime :=
  if 1 ≤ y ∧ y ≤ 9999 ∧ 1 ≤ mo ∧ mo ≤ 12 ∧ 1 ≤ d ∧ d ≤ daysInMonth y mo
     ∧ h ≤ 23 ∧ mi ≤ 59 ∧ s ≤ 59
  then some ⟨y, mo, d, h, mi, s⟩ else none

def digitVal (c : Char) : Nat := c.toNat - 48

def num2 (a b : Char) : Nat := digitVal a * 10 + digitVal b

def num4 (a b c d : Char) : Nat := ((digitVal a * 10 + digitVal b) * 10 + digitVal c) * 10 + digitVal d

def allDigits (l : Str) : Bool := l.all Char.isDigit

/-- `datetime.fromisoformat` on the `YYYY-MM-DD` and
`YYYY-MM-DD?HH:MM:SS` shapes produced and consumed by this code base
(`?` a `T` or space separator).  Other ISO-8601 forms are outside the
embedding; every claim is conditioned only on whether a date string
parses, and all concrete inputs below use these shapes. -/
def fromisoformat (s : Str) : Option PyDateTime :=
  match s with
  | [y1, y2, y3, y4, sep1, m1, m2, sep2, d1, d2] =>
    if sep1 = '-' ∧ sep2 = '-' ∧ allDigits [y1, y2, y3, y4, m1, m2, d1, d2]
    then mkDateTime (num4 y1 y2 y3 y4) (num2 m1 m2) (num2 d1 d2) 0 0 0
    else none
  | [y1, y2, y3, y4, sep1, m1, m2, sep2, d1, d2, t, h1, h2, c1, mi1, mi2, c2, s1, s2] =>
    if sep1 = '-' ∧ sep2 = '-' ∧ (t = 'T' ∨ t = ' ') ∧ c1 = ':' ∧ c2 = ':'
       ∧ allDigits [y1, y2, y3, y4, m1, m2, d1, d2, h1, h2, mi1, mi2, s1, s2]
    then mkDateTime (num4 y1 y2 y3 y4) (num2 m1 m2) (num2 d1 d2) (num2 h1 h2) (num2 mi1 mi2) (num2 s1 s2)
    else none
  | _ => none

/-- Decimal digits of `n`, most significant first. -/
def natDigits (n : Nat) : Str := Nat.toDigits 10 n

/-- Zero-pad to a given width. -/
def padNum (width n : Nat) : Str :=
  List.replicate (width - (natDigits n).length) '0' ++ natDigits n

/-- `datetime.isoformat()` (no microseconds, as none are modelled). -/
def isoformat (d : PyDateTime) : Str :=
  padNum 4 d.year ++ "-".data ++ padNum 2 d.month ++ "-".data ++ padNum 2 d.day
    ++ "T".data ++ padNum 2 d.hour ++ ":".data ++ padNum 2 d.minute ++ ":".data ++ padNum 2 d.second

/-- `TimelineUltra._score_event` (timeline_ultra.py lines 188-205).
The source accumulates into a float starting at 0.0 with an
`if/elif` on the event type and two keyword checks on the lowered
title, then caps at 1.0; the accumulation is written here as one
expression with the same summands. -/
def score_event (title event_type : Str) : ℚ :=
  min
    (((if event_type = "loi".data then (0.4 : ℚ)
       else if event_type = "decret".data then 0.2 else 0)
      + (if containsSub "réforme".data (pyLower title)
            || containsSub "codification".data (pyLower title) then 0.3 else 0))
      + (if containsSub "travail".data (pyLower title)
            || containsSub "social".data (pyLower title)
            || containsSub "emploi".data (pyLower title) then 0.2 else 0))
    1

/-- The `LegalEvent` dataclass of timeline_ultra.py (a float score,
default 0.0, modelled as a rational). -/
structure LegalEvent where
  date : PyDateTime
  title : Str
  source : Str
  event_type : Str
  description : Str
  score : ℚ
deriving DecidableEq

/-- `TimelineUltra._fingerprint`: the calendar day together with the
lower-cased, stripped title truncated to its first 100 characters. -/
def fingerprint (e : LegalEvent) : (Nat × Nat × Nat) × Str :=
  (dateOnly e.date, (pyStrip (pyLower e.title)).take 100)

/-! ### Persistent store (`memory/timeline_memory.py`)

`TimelineMemory` keeps a JSON mapping from a SHA-256 digest of
`date.isoformat() + "-" + title` to the event's payload, mirrored to a
backing file on every mutation.  The mapping is modelled as an
association list in insertion order (Python dicts preserve insertion
order); the digest is modelled by its preimage string, of which the
digest is a deterministic function.  The `timestamp` payload field is
written from the wall clock and never read back, so it is not
modelled. -/

/-- One stored payload dictionary.  The string fields are optional
because `_load_from_memory` reads them with `payload.get(...)`
defaults; `_event_to_dict` always writes all of them. -/
structure StoredPayload where
  date : Option Str
  title : Option Str
  source : Option Str
  event_type : Option Str
  description : Option Str
  score : ℚ
deriving DecidableEq

abbrev MemoryDb := List (Str × StoredPayload)

/-- `TimelineMemory._hash_event` (the digest's preimage, see above). -/
def hash_event (e : LegalEvent) : Str :=
  isoformat e.date ++ "-".data ++ e.title

/-- `TimelineMemory._event_to_dict`. -/
def event_to_dict (e : LegalEvent) : StoredPayload :=
  { date := some (isoformat e.date), title := some e.title, source := some e.source,
    event_type := some e.event_type, description := some e.description, score := e.score }

/-- `TimelineMemory.upsert_event`: no-op when the key is already
present, else insert and rewrite the backing file. -/
def upsert_event (db : MemoryDb) (e : LegalEvent) : MemoryDb :=
  if db.any (fun kv => decide (kv.1 = hash_event e)) then db
  else db ++ [(hash_event e, event_to_dict e)]

/-! ### Stable sorting by date

Python's `list.sort`/`sorted` is a stable sort; with `key=lambda e:
e.date` it orders events by datetime, keeping the original order of
equal dates.  It is modelled by a stable insertion sort on a `Nat`
key. -/

def insertLE {α : Type} (key : α → Nat) (a : α) : List α → List α
  | [] => [a]
  | b :: l => if key a ≤ key b then a :: b :: l else b :: insertLE key a l

def sortByKeyNat {α : Type} (key : α → Nat) (l : List α) : List α :=
  l.foldr (insertLE key) []

/-- `sorted(events, key=lambda e: e.date)` / `events.sort(key=...)`. -/
def sortEvents (l : List LegalEvent) : List LegalEvent :=
  sortByKeyNat (fun e => e.date.toNat) l

/-! ### The engine (`TimelineUltra`) -/

/-- A raw dict-shaped candidate as handled by the `isinstance(event,
dict)` branch of `ingest_llm_events` (lines 141-157).  `none` models a
missing key (`event.get` returning its default).  The embedding takes
the `date` entry to be a string; descriptors whose `date` key is
absent lead the source to build an event with `date=None`, a path no
claim exercises. -/
structure RawEvent where
  date : Str
  title : Option Str
  event_type : Option Str
  description : Option Str
deriving DecidableEq

/-- A candidate passed to `ingest_llm_events`: either an
attribute-bearing `TimelineEvent`-like object (first branch, lines
132-140) or a dict (second branch). Unrecognized shapes (the final
`else`) are skipped by the source and not modelled. -/
inductive Candidate
  | obj (date : PyDateTime) (title : Str) (event_type : Option Str) (description : Option Str)
  | dict (r : RawEvent)
deriving DecidableEq

/-- The `LegalEvent` built from a dict candidate whose date parsed to
`d`.  Note the source's two different defaults: the stored
`event_type` defaults to `"modification"` while the scorer receives
`event.get("event_type", "")`. -/
def legalEventOfDict (r : RawEvent) (d : PyDateTime) : LegalEvent :=
  { date := d, title := r.title.getD [], source := "llm".data,
    event_type := r.event_type.getD "modification".data,
    description := r.description.getD [],
    score := score_event (r.title.getD []) (r.event_type.getD []) }

/-- The `LegalEvent` built from an object candidate (`getattr`
defaults mirror the source: `'modification'` for the stored type,
`''` for the scorer's argument). -/
def legalEventOfObj (d : PyDateTime) (t : Str) (et : Option Str) (ds : Option Str) : LegalEvent :=
  { date := d, title := t, source := "llm".data,
    event_type := et.getD "modification".data,
    description := ds.getD [],
    score := score_event t (et.getD []) }

/-- Candidate conversion: `none` exactly when the source logs
`Date invalide` and `continue`s (unparseable date string). -/
def toLegalEvent : Candidate → Option LegalEvent
  | .obj d t et ds => some (legalEventOfObj d t et ds)
  | .dict r => (fromisoformat r.date).map (legalEventOfDict r)

/-- The engine state: in-memory event list, fingerprint set (modelled
as the list of inserted fingerprints), and the optional persistent
store (`none` when `enable_memory` is off or unavailable). -/
structure TimelineUltra where
  events : List LegalEvent
  fingerprints : List ((Nat × Nat × Nat) × Str)
  memory : Option MemoryDb
deriving DecidableEq

/-- One iteration of the `for event in events` loop of
`ingest_llm_events`: convert, drop on bad date, drop on known
fingerprint, else append to the event list, record the fingerprint,
persist, and extend the newly-accepted list. -/
def ingestStep (acc : TimelineUltra × List LegalEvent) (c : Candidate) :
    TimelineUltra × List LegalEvent :=
  match toLegalEvent c with
  | none => acc
  | some e =>
    if fingerprint e ∈ acc.1.fingerprints then acc
    else
      ({ acc.1 with
          events := acc.1.events ++ [e],
          fingerprints := fingerprint e :: acc.1.fingerprints,
          memory := acc.1.memory.map (fun db => upsert_event db e) },
        acc.2 ++ [e])

/-- `TimelineUltra.ingest_llm_events`: process every candidate, then
re-sort the in-memory list by date; return the newly accepted
events. -/
def ingest_llm_events (st : TimelineUltra) (events : List Candidate) :
    TimelineUltra × List LegalEvent :=
  let p := events.foldl ingestStep (st, [])
  ({ p.1 with events := sortEvents p.1.events }, p.2)

/-- `TimelineUltra.get_events`: a date-sorted copy of the list. -/
def get_events (st : TimelineUltra) : List LegalEvent :=
  sortEvents st.events

/-- `TimelineUltra.get_events_range`: filter the sorted list by the
optional inclusive bounds (a `datetime` is always truthy, so `if
start_date:` is a `None` test). -/
def get_events_range (st : TimelineUltra) (start_date end_date : Option PyDateTime) :
    List LegalEvent :=
  let evs := get_events st
  let evs1 := match start_date with
    | some s => evs.filter (fun e => dateLE s e.date)
    | none => evs
  match end_date with
  | some en => evs1.filter (fun e => dateLE e.date en)
  | none => evs1

/-- `TimelineUltra.clear`: empty the in-memory list and fingerprint
set; the persistent store is not touched. -/
def clear (st : TimelineUltra) : TimelineUltra :=
  { st with events := [], fingerprints := [] }

/-- The `LegalEvent` rebuilt by `_load_from_memory` from a stored
payload whose date parsed to `d`: the constructor is called without a
`score` argument, so the dataclass default 0.0 applies and the
payload's `score` field is discarded. -/
def loadedEvent (p : StoredPayload) (d : PyDateTime) : LegalEvent :=
  { date := d, title := p.title.getD [], source := p.source.getD "unknown".data,
    event_type := p.event_type.getD "modification".data,
    description := p.description.getD [], score := 0 }

/-- One iteration of `TimelineUltra._load_from_memory`'s loop over the
stored payloads: skip falsy or unparseable dates, rebuild the event,
and append it unless its fingerprint is already known. -/
def loadStep (acc : TimelineUltra) (p : StoredPayload) : TimelineUltra :=
  match p.date with
  | none => acc
  | some ds =>
    if ds = [] then acc
    else
      match fromisoformat ds with
      | none => acc
      | some d =>
        if fingerprint (loadedEvent p d) ∈ acc.fingerprints then acc
        else { acc with
                events := acc.events ++ [loadedEvent p d],
                fingerprints := fingerprint (loadedEvent p d) :: acc.fingerprints }

/-- `TimelineUltra.__init__`: with memory enabled the stored payloads
are loaded at construction time; with memory disabled the engine
starts empty. -/
def mkTimelineUltra : Option MemoryDb → TimelineUltra
  | none => { events := [], fingerprints := [], memory := none }
  | some db => (db.map Prod.snd).foldl loadStep { events := [], fingerprints := [], memory := some db }

/-! ### The fallback free-text extractor (`timeline_header.py`)

`extract_events_from_last_response` runs, over the last assistant
message's text: a JSON-array fast path (returning early when a
`[ ... wrapped object ... ]` block parses), then cumulatively markdown
table rows, HTML table rows, full French date mentions, and bare
4-digit years, followed by a by-day dedup and a date sort.  The regex
scanners are modelled directly; recursions are driven by a fuel
argument always instantiated with more than the text's length (every
step consumes at least one character, so the fuel never runs out). -/

/-- `timeline_header.TimelineEvent` (display candidate record). -/
structure TimelineEvent where
  date : PyDateTime
  title : Str
  event_type : Str
  description : Str
  details : Str
deriving DecidableEq

/-- Python's regex `\w` (word character), restricted to ASCII
alphanumerics, underscore and the Latin-1/Latin-Extended-A letters
(which cover the accented French letters appearing here). -/
def isWordChar (c : Char) : Bool :=
  c.isAlphanum || c == '_'
    || (decide (0xC0 ≤ c.toNat) && decide (c.toNat ≤ 0x17F)
        && !(c.toNat == 0xD7) && !(c.toNat == 0xF7))

/-- Decimal value of a digit run. -/
def toNum (l : Str) : Nat := l.foldl (fun a c => a * 10 + digitVal c) 0

/-- The `mois_fr` month-name table of `_parse_date_french`. -/
def moisFrTable : List (String × Nat) :=
  [("janvier", 1), ("février", 2), ("mars", 3), ("avril", 4),
   ("mai", 5), ("juin", 6), ("juillet", 7), ("août", 8),
   ("septembre", 9), ("octobre", 10), ("novembre", 11), ("décembre", 12),
   ("janv", 1), ("févr", 2), ("avr", 4), ("juill", 7), ("sept", 9), ("oct", 10),
   ("nov", 11), ("déc", 12),
   ("fev", 2), ("aout", 8), ("dec", 12)]

/-- Tail of the pattern `(\d{1,2})\s+(\w+)\s+(\d{4})` after the day
digits: at least one whitespace, a maximal word-character run, at
least one whitespace, then four digits (`\w` and `\s`, and `\s` and
`\d`, are disjoint, so the greedy runs are maximal with no
backtracking). -/
def p2After (day : Nat) (r : Str) : Option (Nat × Str × Nat) :=
  let w1 := r.takeWhile pyWs
  if w1 = [] then none else
  let r1 := r.drop w1.length
  let wd := r1.takeWhile isWordChar
  if wd = [] then none else
  let r2 := r1.drop wd.length
  let w2 := r2.takeWhile pyWs
  if w2 = [] then none else
  match r2.drop w2.length with
  | c1 :: c2 :: c3 :: c4 :: _ =>
    if allDigits [c1, c2, c3, c4] then some (day, wd, num4 c1 c2 c3 c4) else none
  | _ => none

/-- Try the pattern at one position; `\d{1,2}` greedily prefers the
two-digit day and backtracks to one digit. -/
def p2TryAt : Str → Option (Nat × Str × Nat)
  | [] => none
  | a :: rest =>
    if a.isDigit then
      (match rest with
       | b :: rest2 => if b.isDigit then p2After (num2 a b) rest2 else none
       | [] => none)
      <|> p2After (digitVal a) rest
    else none

/-- `re.search`: the leftmost match of the day-month-year pattern. -/
def p2Search : Nat → Str → Option (Nat × Str × Nat)
  | 0, _ => none
  | _ + 1, [] => none
  | fuel + 1, s@(_ :: rest) => p2TryAt s <|> p2Search fuel rest

/-- Tail of the numeric-date pattern (day, separator, month,
separator, four-digit year; each separator a slash or dash) after day
and month. -/
def p3AfterMonth (day mon : Nat) (r : Str) : Option (Nat × Nat × Nat) :=
  match r with
  | sep :: c1 :: c2 :: c3 :: c4 :: _ =>
    if (sep = '/' ∨ sep = '-') ∧ allDigits [c1, c2, c3, c4] = true
    then some (day, mon, num4 c1 c2 c3 c4) else none
  | _ => none

def p3AfterDay (day : Nat) (r : Str) : Option (Nat × Nat × Nat) :=
  match r with
  | sep :: r1 =>
    if sep = '/' ∨ sep = '-' then
      match r1 with
      | m1 :: rest =>
        if m1.isDigit then
          (match rest with
           | m2 :: rest2 => if m2.isDigit then p3AfterMonth day (num2 m1 m2) rest2 else none
           | [] => none)
          <|> p3AfterMonth day (digitVal m1) rest
        else none
      | [] => none
    else none
  | [] => none

def p3TryAt : Str → Option (Nat × Nat × Nat)
  | [] => none
  | a :: rest =>
    if a.isDigit then
      (match rest with
       | b :: rest2 => if b.isDigit then p3AfterDay (num2 a b) rest2 else none
       | [] => none)
      <|> p3AfterDay (digitVal a) rest
    else none

def p3Search : Nat → Str → Option (Nat × Nat × Nat)
  | 0, _ => none
  | _ + 1, [] => none
  | fuel + 1, s@(_ :: rest) => p3TryAt s <|> p3Search fuel rest

/-- `re.search(r'\b(19|20)\d{2}\b', s)`: the full four-digit year of
the first word-boundary-delimited match (`prevW` tracks whether the
previous character was a word character). -/
def p4Search : Nat → Bool → Str → Option Nat
  | 0, _, _ => none
  | _ + 1, _, [] => none
  | fuel + 1, prevW, c0 :: rest =>
    (match rest with
     | c1 :: c2 :: c3 :: rest4 =>
       if !prevW && ((c0 == '1' && c1 == '9') || (c0 == '2' && c1 == '0'))
          && c2.isDigit && c3.isDigit
          && (match rest4 with | [] => true | n :: _ => !isWordChar n)
       then some (num4 c0 c1 c2 c3) else none
     | _ => none)
    <|> p4Search fuel (isWordChar c0) rest

/-- `_parse_date_french` (timeline_header.py lines 510-574): empty
input fails; else strip, then try in order: a bare 4-digit year
(January 1st), `"D month YYYY"` on the lowered string against the
month table, `DD/MM/YYYY` with `/` or `-` separators, and finally any
embedded `\b(19|20)\d{2}\b` year (January 1st).  Each `datetime`
construction that would raise `ValueError` falls through to the next
pattern, as in the source. -/
def parse_date_french (s0 : Str) : Option PyDateTime :=
  if s0 = [] then none
  else
    let s := pyStrip s0
    (if s.length = 4 ∧ allDigits s = true then mkDateTime (toNum s) 1 1 0 0 0 else none)
    <|> (match p2Search (s.length + 1) (pyLower s) with
         | some (day, mn, yr) =>
           match moisFrTable.find? (fun kv => decide (kv.1.data = mn)) with
           | some kv => mkDateTime yr kv.2 day 0 0 0
           | none => none
         | none => none)
    <|> (match p3Search (s.length + 1) s with
         | some (day, mon, yr) => mkDateTime yr mon day 0 0 0
         | none => none)
    <|> (match p4Search (s.length + 1) false s with
         | some yr => mkDateTime yr 1 1 0 0 0
         | none => none)

/-- One attempted match of the markdown-row pattern
`^\s*(\d{4})\s*\|\s*([^\|]+)\|\s*([^\n]+)` at a line-start position:
groups and the remainder after the match.  `[^|]` and `[^\n]` also
match whitespace, so when the greedy `\s*` leaves the following
one-or-more group empty, the regex backtracks one character; both
give-back cases are modelled explicitly. -/
def mdTryMatch (s : Str) : Option ((Str × Str × Str) × Str) :=
  match s.dropWhile pyWs with
  | a :: b :: c :: d :: r1 =>
    if allDigits [a, b, c, d] then
      match r1.dropWhile pyWs with
      | p :: r3 =>
        if p = '|' then
          let w := r3.takeWhile pyWs
          let r4 := r3.drop w.length
          let g2c := r4.takeWhile (fun ch => ch != '|')
          let g2 := if g2c = [] then (match w.getLast? with | some lc => [lc] | none => []) else g2c
          if g2 = [] then none
          else
            match r4.drop g2c.length with
            | _ :: r6 =>
              match r6.dropWhile pyWs with
              | e :: r8 =>
                some (([a, b, c, d], g2, (e :: r8).takeWhile (fun ch => ch != '\n')),
                      (e :: r8).dropWhile (fun ch => ch != '\n'))
              | [] =>
                match r6.getLast? with
                | some lc => if lc = '\n' then none else some (([a, b, c, d], g2, [lc]), [])
                | none => none
            | [] => none
        else none
      | [] => none
    else none
  | _ => none

/-- `re.finditer` of the markdown-row pattern with `re.MULTILINE`:
attempts start at line starts, and scanning resumes after each
match. -/
def mdFindRows : Nat → Bool → Str → List (Str × Str × Str)
  | 0, _, _ => []
  | _ + 1, _, [] => []
  | fuel + 1, atStart, s@(c :: rest) =>
    if atStart then
      match mdTryMatch s with
      | some (g, rem) => g :: mdFindRows fuel false rem
      | none => mdFindRows fuel (c == '\n') rest
    else mdFindRows fuel (c == '\n') rest

/-- Markdown-table strategy: title capped at 60 characters,
description at 120, type `modification`; rows whose year fails to
parse are skipped. -/
def mdEvents (t : Str) : List TimelineEvent :=
  (mdFindRows (t.length + 1) true t).filterMap (fun g =>
    match g with
    | (y, g2, g3) =>
      (parse_date_french y).map (fun date =>
        { date := date, title := (pyStrip g2).take 60, event_type := "modification".data,
          description := (pyStrip g3).take 120, details := [] }))

/-- Case-insensitive literal-prefix test (the patterns are lowercase
ASCII). -/
def ciHasPrefix (pat s : Str) : Bool :=
  decide ((s.take pat.length).map pyLowerChar = pat)

/-- `<td[^>]*>`: the opening cell tag (case-insensitive), returning
the remainder after its `>`. -/
def dropTdOpen (s : Str) : Option Str :=
  if ciHasPrefix "<td".data s then
    let r := s.drop 3
    let attrs := r.takeWhile (fun ch => ch != '>')
    match r.drop attrs.length with
    | _ :: r2 => some r2
    | [] => none
  else none

/-- Lazy `(.*?)</td>`: split at the first (case-insensitive)
`</td>`. -/
def splitCloseTd : Nat → Str → Option (Str × Str)
  | 0, _ => none
  | _ + 1, [] => none
  | fuel + 1, c :: rest =>
    if ciHasPrefix "</td>".data (c :: rest) then some ([], (c :: rest).drop 5)
    else
      match splitCloseTd fuel rest with
      | some (a, b) => some (c :: a, b)
      | none => none

/-- One attempted match of the HTML-row pattern
`<td[^>]*>\s*(\d{4})\s*</td>\s*<td[^>]*>(.*?)</td>\s*<td[^>]*>(.*?)</td>`
(IGNORECASE, DOTALL) at one position. -/
def htmlTryMatch (fuel : Nat) (s : Str) : Option ((Str × Str × Str) × Str) :=
  match dropTdOpen s with
  | none => none
  | some r1 =>
    match r1.dropWhile pyWs with
    | a :: b :: c :: d :: r3 =>
      if allDigits [a, b, c, d] then
        let r4 := r3.dropWhile pyWs
        if ciHasPrefix "</td>".data r4 then
          let r5 := (r4.drop 5).dropWhile pyWs
          match dropTdOpen r5 with
          | some r6 =>
            match splitCloseTd fuel r6 with
            | some (g2, r7) =>
              match dropTdOpen (r7.dropWhile pyWs) with
              | some r9 =>
                match splitCloseTd fuel r9 with
                | some (g3, r10) => some (([a, b, c, d], g2, g3), r10)
                | none => none
              | none => none
            | none => none
          | none => none
        else none
      else none
    | _ => none

def htmlFindRows : Nat → Str → List (Str × Str × Str)
  | 0, _ => []
  | _ + 1, [] => []
  | fuel + 1, s@(_ :: rest) =>
    match htmlTryMatch (s.length + 1) s with
    | some (g, rem) => g :: htmlFindRows fuel rem
    | none => htmlFindRows fuel rest

/-- `re.sub('<[^<]+?>', '', x)`: remove every `<`-to-first-`>` tag
holding at least one character none of which is another `<`. -/
def stripTags : Nat → Str → Str
  | 0, s => s
  | _ + 1, [] => []
  | fuel + 1, c :: rest =>
    if c = '<' then
      let mid := rest.takeWhile (fun x => x != '>' && x != '<')
      match rest.drop mid.length with
      | '>' :: r2 => if mid = [] then c :: stripTags fuel rest else stripTags fuel r2
      | _ => c :: stripTags fuel rest
    else c :: stripTags fuel rest

/-- HTML-table strategy: inner tags stripped from the captured cells,
then the same caps and type as the markdown strategy. -/
def htmlEvents (t : Str) : List TimelineEvent :=
  (htmlFindRows (t.length + 1) t).filterMap (fun g =>
    match g with
    | (y, g2, g3) =>
      (parse_date_french y).map (fun date =>
        { date := date, title := (pyStrip (stripTags (g2.length + 1) g2)).take 60,
          event_type := "modification".data,
          description := (pyStrip (stripTags (g3.length + 1) g3)).take 120, details := [] }))

/-- Tail of `(\d{1,2}\s+\w+\s+\d{4})` after the day digits, returning
the matched characters and the remainder. -/
def fdTail (r : Str) : Option (Str × Str) :=
  let w1 := r.takeWhile pyWs
  if w1 = [] then none else
  let r1 := r.drop w1.length
  let wd := r1.takeWhile isWordChar
  if wd = [] then none else
  let r2 := r1.drop wd.length
  let w2 := r2.takeWhile pyWs
  if w2 = [] then none else
  match r2.drop w2.length with
  | c1 :: c2 :: c3 :: c4 :: r4 =>
    if allDigits [c1, c2, c3, c4] then some (w1 ++ wd ++ w2 ++ [c1, c2, c3, c4], r4) else none
  | _ => none

def fdTryAt : Str → Option (Str × Str)
  | [] => none
  | a :: rest =>
    if a.isDigit then
      (match rest with
       | b :: rest2 =>
         if b.isDigit then (fdTail rest2).map (fun pr => ([a, b] ++ pr.1, pr.2)) else none
       | [] => none)
      <|> (fdTail rest).map (fun pr => ([a] ++ pr.1, pr.2))
    else none

/-- `re.finditer` of the full-date pattern, tracking character offsets
for the description snippet. -/
def fdScan : Nat → Nat → Str → List (Nat × Str × Nat)
  | 0, _, _ => []
  | _ + 1, _, [] => []
  | fuel + 1, pos, s@(_ :: rest) =>
    match fdTryAt s with
    | some (m, rem) => (pos, m, pos + m.length) :: fdScan fuel (pos + m.length) rem
    | none => fdScan fuel (pos + 1) rest

/-- Full-date strategy (timeline_header.py lines 456-474): each match
becomes a generic `Texte juridique` event whose description is the
40-before/80-after snippet with newlines replaced by spaces, capped at
120 characters. -/
def fullDateEvents (t : Str) : List TimelineEvent :=
  (fdScan (t.length + 1) 0 t).filterMap (fun x =>
    match x with
    | (st, m, en) =>
      (parse_date_french m).map (fun date =>
        let ss := st - 40
        let se := min t.length (en + 80)
        let snippet := ((t.drop ss).take (se - ss)).map (fun c => if c = '\n' then ' ' else c)
        { date := date, title := "Texte juridique".data, event_type := "publication".data,
          description := snippet.take 120, details := [] }))

/-- `re.findall(r'\b(19|20)\d{2}\b', text)`: with one capture group,
`findall` returns the group's text only — the two-character century
prefix `"19"`/`"20"`, not the full year.  All matches, in order,
non-overlapping. -/
def yearGroupScan : Nat → Bool → Str → List Str
  | 0, _, _ => []
  | _ + 1, _, [] => []
  | fuel + 1, prevW, c0 :: rest =>
    match rest with
    | c1 :: c2 :: c3 :: rest4 =>
      if !prevW && ((c0 == '1' && c1 == '9') || (c0 == '2' && c1 == '0'))
         && c2.isDigit && c3.isDigit
         && (match rest4 with | [] => true | n :: _ => !isWordChar n)
      then [c0, c1] :: yearGroupScan fuel true rest4
      else yearGroupScan fuel (isWordChar c0) rest
    | _ => yearGroupScan fuel (isWordChar c0) rest

/-- `set(years)` modelled as first-occurrence deduplication (Python's
set iteration order is unspecified; the downstream per-day dedup makes
the order immaterial here). -/
def distinctKeep {α : Type} [DecidableEq α] (seen : List α) : List α → List α
  | [] => []
  | x :: xs => if x ∈ seen then distinctKeep seen xs else x :: distinctKeep (x :: seen) xs

/-- Bare-year strategy (timeline_header.py lines 480-491): each
distinct `findall` result is fed to `_parse_date_french`; only parses
that succeed yield an `Année ...` placeholder event. -/
def bareYearEvents (t : Str) : List TimelineEvent :=
  (distinctKeep [] (yearGroupScan (t.length + 1) false t)).filterMap (fun y =>
    (parse_date_french y).map (fun date =>
      { date := date, title := "Année ".data ++ y, event_type := "modification".data,
        description := "Événement détecté automatiquement".data, details := [] }))

/-- The final per-calendar-day dedup (first-seen wins, as dict
insertion order is preserved). -/
def dedupByDay (seen : List (Nat × Nat × Nat)) : List TimelineEvent → List TimelineEvent
  | [] => []
  | e :: rest =>
    if dateOnly e.date ∈ seen then dedupByDay seen rest
    else e :: dedupByDay (dateOnly e.date :: seen) rest

/-- Whether any suffix begins with a closing brace, optional
whitespace, then `]` — the tail of the JSON-block regex. -/
def closeBB : Nat → Str → Bool
  | 0, _ => false
  | _ + 1, [] => false
  | fuel + 1, c :: rest =>
    (c == '\x7d' && (match rest.dropWhile pyWs with | ']' :: _ => true | _ => false))
      || closeBB fuel rest

/-- Whether `re.search(r'\[\s*\{.*?\}\s*\]', text, re.DOTALL)`
matches: some `[`, optional whitespace, `\x7b`, then anywhere later a
`\x7d`, optional whitespace, `]`. -/
def jsonArrayBlockExists : Nat → Str → Bool
  | 0, _ => false
  | _ + 1, [] => false
  | fuel + 1, c :: rest =>
    (c == '[' && (match rest.dropWhile pyWs with
                  | c2 :: r2 => c2 == '\x7b' && closeBB (r2.length + 1) r2
                  | [] => false))
      || jsonArrayBlockExists fuel rest

/-- `extract_events_from_last_response` (timeline_header.py lines
409-507) on a text in which the JSON fast path finds no block (the
source returns early only inside its `if json_match:` branch; when
`jsonArrayBlockExists` is false the remaining strategies below are
exactly what runs): markdown rows, HTML rows, full dates and bare
years, concatenated in that order, deduplicated by calendar day, and
sorted by date. -/
def extract_events_fallback (text : Str) : List TimelineEvent :=
  sortByKeyNat (fun e => e.date.toNat)
    (dedupByDay [] (mdEvents text ++ htmlEvents text ++ fullDateEvents text ++ bareYearEvents text))

/-! ### Concrete inputs used by the witnesses and counterexamples -/

/-- A well-formed LLM candidate (spec Scenario A). -/
def c1r : RawEvent :=
  { date := "2016-08-08".data, title := some "Loi n 2016-1088 relative au travail".data,
    event_type := some "loi".data, description := none }

def c3good1 : Candidate :=
  .dict { date := "2016-08-08".data, title := some "Loi travail".data,
          event_type := some "loi".data, description := none }

def c3good2 : Candidate :=
  .dict { date := "2020-10-29".data, title := some "Décret confinement".data,
          event_type := some "decret".data, description := none }

/-- A candidate whose date string `datetime.fromisoformat` rejects. -/
def c3bad : RawEvent :=
  { date := "pas-une-date".data, title := some "Texte".data,
    event_type := none, description := none }

/-- Two titles agreeing on their first 100 characters and differing
beyond. -/
def c4title1 : Str := List.replicate 100 'a' ++ "xyz".data

def c4title2 : Str := List.replicate 100 'a' ++ "qrs".data

def c4r1 : RawEvent :=
  { date := "2020-05-05".data, title := some c4title1, event_type := none, description := none }

def c4r2 : RawEvent :=
  { date := "2020-05-05".data, title := some c4title2, event_type := none, description := none }

def c7r : RawEvent :=
  { date := "2020-10-29".data, title := some "Décret n 2020-1310".data,
    event_type := some "decret".data, description := none }

/-- An engine that has already seen `c7r`. -/
def c7st : TimelineUltra :=
  (ingest_llm_events (mkTimelineUltra none) [Candidate.dict c7r]).1

/-- A candidate with a parseable date and no title key at all. -/
def c9r : RawEvent :=
  { date := "2020-01-01".data, title := none, event_type := none, description := none }

/-- A stored payload carrying a nonzero persisted score. -/
def c10payload : StoredPayload :=
  { date := some "2016-08-08".data, title := some "Loi travail".data, source := some "llm".data,
    event_type := some "loi".data, description := some [], score := 0.7 }

def c10db : MemoryDb := [("k1".data, c10payload)]

/-- The event `_load_from_memory` rebuilds from `c10payload`. -/
def c10event : LegalEvent :=
  { date := ⟨2016, 8, 8, 0, 0, 0⟩, title := "Loi travail".data, source := "llm".data,
    event_type := "loi".data, description := [], score := 0 }

/-- A text containing the bare year 1998 and matching none of the
higher-priority strategies. -/
def c8Text : Str := "La codification de 1998 fut importante.".data

/-! ### Sortedness of the stable insertion sort -/

theorem mem_insertLE {α : Type} (key : α → Nat) (a y : α) (l : List α) :
    y ∈ insertLE key a l ↔ y = a ∨ y ∈ l := by
  induction l with
  | nil => simp [insertLE]
  | cons b l ih =>
    by_cases h : key a ≤ key b
    · simp [insertLE, h]
    · simp only [insertLE, if_neg h, List.mem_cons, ih]
      tauto

theorem pairwise_insertLE {α : Type} (key : α → Nat) (a : α) (l : List α)
    (h : l.Pairwise (fun x y => key x ≤ key y)) :
    (insertLE key a l).Pairwise (fun x y => key x ≤ key y) := by
  induction l with
  | nil => simp [insertLE]
  | cons b l ih =>
    rw [List.pairwise_cons] at h
    obtain ⟨hb, hl⟩ := h
    by_cases hab : key a ≤ key b
    · simp only [insertLE, if_pos hab]
      refine List.pairwise_cons.2 ⟨?_, List.pairwise_cons.2 ⟨hb, hl⟩⟩
      intro y hy
      rcases List.mem_cons.1 hy with rfl | hy'
      · exact hab
      · exact le_trans hab (hb y hy')
    · simp only [insertLE, if_neg hab]
      refine List.pairwise_cons.2 ⟨?_, ih hl⟩
      intro y hy
      rcases (mem_insertLE key a y l).1 hy with rfl | hy'
      · exact le_of_not_le hab
      · exact hb y hy'

theorem pairwise_sortByKeyNat {α : Type} (key : α → Nat) (l : List α) :
    (sortByKeyNat key l).Pairwise (fun x y => key x ≤ key y) := by
  induction l with
  | nil => simp [sortByKeyNat]
  | cons a l ih => exact pairwise_insertLE key a _ ih

/-! ### Helper lemmas about one ingestion step -/

theorem ingestStep_skip (acc : TimelineUltra × List LegalEvent) (c : Candidate)
    (h : toLegalEvent c = none) : ingestStep acc c = acc := by
  simp [ingestStep, h]

theorem ingestStep_new (st : TimelineUltra) (news : List LegalEvent) (c : Candidate)
    (e : LegalEvent) (h : toLegalEvent c = some e) (hnew : fingerprint e ∉ st.fingerprints) :
    ingestStep (st, news) c =
      ({ st with
          events := st.events ++ [e]
          fingerprints := fingerprint e :: st.fingerprints
          memory := st.memory.map (fun db => upsert_event db e) }, news ++ [e]) := by
  simp [ingestStep, h, hnew]

theorem ingestStep_dup (st : TimelineUltra) (news : List LegalEvent) (c : Candidate)
    (e : LegalEvent) (h : toLegalEvent c = some e) (hdup : fingerprint e ∈ st.fingerprints) :
    ingestStep (st, news) c = (st, news) := by
  simp [ingestStep, h, hdup]

theorem ingest_single_new (st : TimelineUltra) (c : Candidate) (e : LegalEvent)
    (h : toLegalEvent c = some e) (hnew : fingerprint e ∉ st.fingerprints) :
    ingest_llm_events st [c] =
      ({ events := sortEvents (st.events ++ [e]),
         fingerprints := fingerprint e :: st.fingerprints,
         memory := st.memory.map (fun db => upsert_event db e) }, [e]) := by
  simp [ingest_llm_events, ingestStep_new st [] c e h hnew]

theorem ingest_single_dup (st : TimelineUltra) (c : Candidate) (e : LegalEvent)
    (h : toLegalEvent c = some e) (hdup : fingerprint e ∈ st.fingerprints) :
    ingest_llm_events st [c] = ({ st with events := sortEvents st.events }, []) := by
  simp [ingest_llm_events, ingestStep_dup st [] c e h hdup]

/-! ### Claim theorems -/

/-- C1: ingestion is idempotent — for a candidate with a parseable
date and a title, ingesting it into a fresh engine and then ingesting
an identical candidate again leaves exactly one accepted event: the
first call returns one newly accepted event, the second call's newly
accepted list is empty, and `get_events()` still has length 1. -/
theorem c1_ingest_idempotent (r : RawEvent) (d : PyDateTime)
    (hd : fromisoformat r.date = some d) (ht : r.title.isSome) :
    (ingest_llm_events (mkTimelineUltra none) [Candidate.dict r]).2.length = 1 ∧
    (ingest_llm_events ((ingest_llm_events (mkTimelineUltra none) [Candidate.dict r]).1)
        [Candidate.dict r]).2 = [] ∧
    (get_events ((ingest_llm_events ((ingest_llm_events (mkTimelineUltra none)
        [Candidate.dict r]).1) [Candidate.dict r]).1)).length = 1 := by
  have hconv : toLegalEvent (Candidate.dict r) = some (legalEventOfDict r d) := by
    simp [toLegalEvent, hd]
  have hmk : mkTimelineUltra none = (⟨[], [], none⟩ : TimelineUltra) := rfl
  have h1 : ingest_llm_events (⟨[], [], none⟩ : TimelineUltra) [Candidate.dict r]
      = (⟨[legalEventOfDict r d], [fingerprint (legalEventOfDict r d)], none⟩, [legalEventOfDict r d]) := by
    rw [ingest_single_new _ _ _ hconv (by simp)]
    simp [sortEvents, sortByKeyNat, insertLE]
  have h2 : ingest_llm_events
      (⟨[legalEventOfDict r d], [fingerprint (legalEventOfDict r d)], none⟩ : TimelineUltra)
      [Candidate.dict r]
      = (⟨[legalEventOfDict r d], [fingerprint (legalEventOfDict r d)], none⟩, []) := by
    rw [ingest_single_dup _ _ _ hconv (by simp)]
    simp [sortEvents, sortByKeyNat, insertLE]
  rw [hmk, h1, h2]
  simp [get_events, sortEvents, sortByKeyNat, insertLE]

/-- Witness for C1 at the Scenario A candidate. -/
theorem c1_witness :
    (ingest_llm_events (mkTimelineUltra none) [Candidate.dict c1r]).2.length = 1 ∧
    (ingest_llm_events ((ingest_llm_events (mkTimelineUltra none) [Candidate.dict c1r]).1)
        [Candidate.dict c1r]).2 = [] ∧
    (get_events ((ingest_llm_events ((ingest_llm_events (mkTimelineUltra none)
        [Candidate.dict c1r]).1) [Candidate.dict c1r]).1)).length = 1 :=
  c1_ingest_idempotent c1r ⟨2016, 8, 8, 0, 0, 0⟩ (by decide) (by decide)

/-- C2: order invariant — after any sequence of ingest calls on one
engine instance (however constructed), `get_events()` is sorted
non-decreasing by date. -/
theorem c2_order_invariant (mem : Option MemoryDb) (batches : List (List Candidate)) :
    (get_events (batches.foldl (fun st b => (ingest_llm_events st b).1)
        (mkTimelineUltra mem))).Pairwise (fun a b => dateLE a.date b.date = true) := by
  simp only [get_events, sortEvents]
  exact (pairwise_sortByKeyNat _ _).imp (fun h => by simpa [dateLE] using h)

/-- C3: partial-failure isolation — a dict candidate whose date string
does not parse is skipped wherever it sits in the batch: ingesting the
batch with it equals ingesting the batch without it (same engine
state, same newly-accepted list), so the surrounding candidates are
processed exactly as before and nothing is aborted. -/
theorem c3_partial_failure (st : TimelineUltra) (pre post : List Candidate) (r : RawEvent)
    (hbad : fromisoformat r.date = none) :
    ingest_llm_events st (pre ++ Candidate.dict r :: post)
      = ingest_llm_events st (pre ++ post) := by
  have hskip : ∀ acc, ingestStep acc (Candidate.dict r) = acc := fun acc => by
    simp [ingestStep, toLegalEvent, hbad]
  simp [ingest_llm_events, List.foldl_append, hskip]

/-- Witness for C3: a three-candidate batch whose middle candidate has
an unparseable date. -/
theorem c3_witness :
    ingest_llm_events (mkTimelineUltra none) ([c3good1] ++ Candidate.dict c3bad :: [c3good2])
      = ingest_llm_events (mkTimelineUltra none) ([c3good1] ++ [c3good2]) :=
  c3_partial_failure (mkTimelineUltra none) [c3good1] [c3good2] c3bad (by decide)

/-- C4: fingerprint truncation — two dict candidates on the same
calendar day whose titles agree on the first 100 characters after
lower-casing and stripping are deduplicated: after the first is
ingested into a fresh engine, ingesting the second accepts nothing. -/
theorem c4_fingerprint_truncation (r1 r2 : RawEvent) (d1 d2 : PyDateTime)
    (h1 : fromisoformat r1.date = some d1) (h2 : fromisoformat r2.date = some d2)
    (hday : dateOnly d1 = dateOnly d2)
    (htitle : (pyStrip (pyLower (r1.title.getD []))).take 100
            = (pyStrip (pyLower (r2.title.getD []))).take 100) :
    (ingest_llm_events ((ingest_llm_events (mkTimelineUltra none) [Candidate.dict r1]).1)
        [Candidate.dict r2]).2 = [] := by
  have hc1 : toLegalEvent (Candidate.dict r1) = some (legalEventOfDict r1 d1) := by
    simp [toLegalEvent, h1]
  have hc2 : toLegalEvent (Candidate.dict r2) = some (legalEventOfDict r2 d2) := by
    simp [toLegalEvent, h2]
  have hfp : fingerprint (legalEventOfDict r2 d2) = fingerprint (legalEventOfDict r1 d1) := by
    simp only [fingerprint, legalEventOfDict]
    rw [← hday, ← htitle]
  have hmk : mkTimelineUltra none = (⟨[], [], none⟩ : TimelineUltra) := rfl
  have hst1 : ingest_llm_events (⟨[], [], none⟩ : TimelineUltra) [Candidate.dict r1]
      = (⟨[legalEventOfDict r1 d1], [fingerprint (legalEventOfDict r1 d1)], none⟩,
         [legalEventOfDict r1 d1]) := by
    rw [ingest_single_new _ _ _ hc1 (by simp)]
    simp [sortEvents, sortByKeyNat, insertLE]
  rw [hmk, hst1, ingest_single_dup _ _ _ hc2 (by simp [hfp])]

/-- Witness for C4: same day, titles sharing their first 100
characters and differing beyond. -/
theorem c4_witness :
    (ingest_llm_events ((ingest_llm_events (mkTimelineUltra none) [Candidate.dict c4r1]).1)
        [Candidate.dict c4r2]).2 = [] :=
  c4_fingerprint_truncation c4r1 c4r2 ⟨2020, 5, 5, 0, 0, 0⟩ ⟨2020, 5, 5, 0, 0, 0⟩
    (by decide) (by decide) (by decide) (by decide)

/-- C5: the significance scorer equals the additive capped formula of
the spec — 0.4 for type `loi`, 0.2 for type `decret`, 0.3 for a
lowered title containing `réforme` or `codification`, 0.2 for one
containing `travail`, `social` or `emploi`, summed and capped at 1.0 —
and its result always lies in the interval from 0 to 1.  (The
function is a pure Lean function, hence deterministic and
side-effect-free.) -/
theorem c5_score_formula (title et : Str) :
    score_event title et
      = min ((if et = "loi".data then (0.4 : ℚ) else 0)
           + (if et = "decret".data then (0.2 : ℚ) else 0)
           + (if containsSub "réforme".data (pyLower title)
                 || containsSub "codification".data (pyLower title) then (0.3 : ℚ) else 0)
           + (if containsSub "travail".data (pyLower title)
                 || containsSub "social".data (pyLower title)
                 || containsSub "emploi".data (pyLower title) then (0.2 : ℚ) else 0)) 1
    ∧ 0 ≤ score_event title et ∧ score_event title et ≤ 1 := by
  have hne : ¬ ("loi".data = "decret".data) := by decide
  unfold score_event
  by_cases hl : et = "loi".data
  · by_cases hdec : et = "decret".data
    · rw [hl] at hdec; exact absurd hdec hne
    · cases hb1 : (containsSub "réforme".data (pyLower title)
          || containsSub "codification".data (pyLower title)) <;>
        cases hb2 : (containsSub "travail".data (pyLower title)
            || containsSub "social".data (pyLower title)
            || containsSub "emploi".data (pyLower title)) <;>
        simp [hl, hdec, hb1, hb2, hne] <;> norm_num [min_def]
  · by_cases hdec : et = "decret".data <;>
      cases hb1 : (containsSub "réforme".data (pyLower title)
          || containsSub "codification".data (pyLower title)) <;>
        cases hb2 : (containsSub "travail".data (pyLower title)
            || containsSub "social".data (pyLower title)
            || containsSub "emploi".data (pyLower title)) <;>
        simp [hl, hdec, hb1, hb2] <;> norm_num [min_def]

/-- C6: range query correctness — `get_events_range` is exactly the
date-sorted event list filtered by the inclusive optional bounds (an
omitted bound filters nothing on that side), and its result is sorted
non-decreasing by date. -/
theorem c6_range_query (st : TimelineUltra) (start_date end_date : Option PyDateTime) :
    get_events_range st start_date end_date
      = (get_events st).filter
          (fun e => start_date.all (fun s => dateLE s e.date)
                 && end_date.all (fun en => dateLE e.date en)) ∧
    (get_events_range st start_date end_date).Pairwise
      (fun a b => dateLE a.date b.date = true) := by
  have hsorted : (get_events st).Pairwise (fun a b => dateLE a.date b.date = true) := by
    simp only [get_events, sortEvents]
    exact (pairwise_sortByKeyNat _ _).imp (fun h => by simpa [dateLE] using h)
  constructor
  · cases start_date with
    | none =>
      cases end_date with
      | none => simp [get_events_range, Option.all]
      | some en => simp [get_events_range, Option.all]
    | some s =>
      cases end_date with
      | none => simp [get_events_range, Option.all]
      | some en =>
        simp only [get_events_range, Option.all]
        rw [List.filter_filter]
        exact List.filter_congr (fun a _ => Bool.and_comm _ _)
  · cases start_date <;> cases end_date <;> simp only [get_events_range] <;>
      first
        | exact hsorted
        | exact hsorted.filter _
        | exact (hsorted.filter _).filter _

/-- C7: clear is a session reset — it empties the in-memory event list
and fingerprint set (so `get_events()` is empty and a previously seen
candidate is accepted again on re-ingestion) while the persistent
store's mapping is left untouched (the model's `memory` field is the
backing file's content; `clear` performs no store call). -/
theorem c7_clear_frame (st : TimelineUltra) (r : RawEvent) (d : PyDateTime)
    (hd : fromisoformat r.date = some d)
    (hseen : fingerprint (legalEventOfDict r d) ∈ st.fingerprints) :
    (clear st).events = [] ∧ (clear st).fingerprints = [] ∧ (clear st).memory = st.memory ∧
    get_events (clear st) = [] ∧
    (ingest_llm_events (clear st) [Candidate.dict r]).2 = [legalEventOfDict r d] := by
  refine ⟨rfl, rfl, rfl, rfl, ?_⟩
  have hconv : toLegalEvent (Candidate.dict r) = some (legalEventOfDict r d) := by
    simp [toLegalEvent, hd]
  rw [ingest_single_new _ _ _ hconv (by simp [clear])]

/-- Witness for C7 at an engine that has already ingested the
candidate. -/
theorem c7_witness :
    (clear c7st).events = [] ∧ (clear c7st).fingerprints = [] ∧
    (clear c7st).memory = c7st.memory ∧
    get_events (clear c7st) = [] ∧
    (ingest_llm_events (clear c7st) [Candidate.dict c7r]).2
      = [legalEventOfDict c7r ⟨2020, 10, 29, 0, 0, 0⟩] :=
  c7_clear_frame c7st c7r ⟨2020, 10, 29, 0, 0, 0⟩ (by decide) (by decide)

/-- C8 (code bug): the bare-year fallback never fires.  On a text
containing the bare year 1998 and matching no higher-priority strategy
(no JSON block, no table rows, no full date), `re.findall` with the
grouped pattern returns only the century prefix `"19"`, which
`_parse_date_french` rejects, so the extractor returns no events at
all — the claimed January-1st placeholder event is never produced. -/
theorem c8_bare_year_fallback_bug :
    containsSub "1998".data c8Text = true ∧
    jsonArrayBlockExists (c8Text.length + 1) c8Text = false ∧
    yearGroupScan (c8Text.length + 1) false c8Text = ["19".data] ∧
    parse_date_french "19".data = none ∧
    extract_events_fallback c8Text = [] := by decide

/-- Counterexample to C9 as stated: a dict candidate with a parseable
date and no title key is not skipped — it is accepted (the newly
accepted list has length 1) and every event then in the engine has an
empty title after trimming. -/
theorem c9_counterexample :
    (ingest_llm_events (mkTimelineUltra none) [Candidate.dict c9r]).2.length = 1 ∧
    ((ingest_llm_events (mkTimelineUltra none) [Candidate.dict c9r]).1.events.all
        (fun e => decide (pyStrip e.title = []))) = true := by decide

/-- C9 (amended): the engine does not validate titles.  A dict
candidate whose date parses and whose fingerprint is new is accepted
regardless of its title; a missing title defaults to the empty string
and is stored as the accepted event's title. -/
theorem c9_amended_title_not_validated (st : TimelineUltra) (r : RawEvent) (d : PyDateTime)
    (hd : fromisoformat r.date = some d)
    (hnew : fingerprint (legalEventOfDict r d) ∉ st.fingerprints) :
    (ingest_llm_events st [Candidate.dict r]).2 = [legalEventOfDict r d] ∧
    (legalEventOfDict r d).title = r.title.getD [] := by
  refine ⟨?_, rfl⟩
  have hconv : toLegalEvent (Candidate.dict r) = some (legalEventOfDict r d) := by
    simp [toLegalEvent, hd]
  rw [ingest_single_new _ _ _ hconv hnew]

/-- Witness for the amended C9 at a candidate with no title key. -/
theorem c9_witness :
    (ingest_llm_events (mkTimelineUltra none) [Candidate.dict c9r]).2
      = [legalEventOfDict c9r ⟨2020, 1, 1, 0, 0, 0⟩] ∧
    (legalEventOfDict c9r ⟨2020, 1, 1, 0, 0, 0⟩).title = c9r.title.getD [] :=
  c9_amended_title_not_validated (mkTimelineUltra none) c9r ⟨2020, 1, 1, 0, 0, 0⟩
    (by decide) (by decide)

/-- One load step either leaves the event list unchanged or appends a
single event whose score is 0. -/
theorem loadStep_events (acc : TimelineUltra) (p : StoredPayload) :
    (loadStep acc p).events = acc.events ∨
    ∃ e0 : LegalEvent, e0.score = 0 ∧ (loadStep acc p).events = acc.events ++ [e0] := by
  unfold loadStep
  cases hp : p.date with
  | none => exact Or.inl rfl
  | some ds =>
    by_cases hds : ds = []
    · simp [hds]
    · simp only [if_neg hds]
      cases hiso : fromisoformat ds with
      | none => exact Or.inl rfl
      | some d =>
        by_cases hf : fingerprint (loadedEvent p d) ∈ acc.fingerprints
        · simp [hf]
        · refine Or.inr ⟨loadedEvent p d, rfl, ?_⟩
          simp [hf]

/-- Every event present after the construction-time load has score
0. -/
theorem load_events_score (ps : List StoredPayload) (acc : TimelineUltra)
    (hacc : ∀ e ∈ acc.events, e.score = 0) :
    ∀ e ∈ (ps.foldl loadStep acc).events, e.score = 0 := by
  induction ps generalizing acc with
  | nil => simpa using hacc
  | cons p ps ih =>
    intro e he
    refine ih (loadStep acc p) ?_ e he
    intro x hx
    rcases loadStep_events acc p with hcase | ⟨e0, hs, hcase⟩
    · exact hacc x (hcase ▸ hx)
    · rw [hcase] at hx
      rcases List.mem_append.1 hx with hx' | hx'
      · exact hacc x hx'
      · rw [List.mem_singleton.1 hx']; exact hs

/-- C10: the persisted score field is discarded on reload — every
event reconstructed by the construction-time load carries score 0.0,
whatever score value its stored payload holds. -/
theorem c10_reload_score_zero (db : MemoryDb) (e : LegalEvent)
    (he : e ∈ (mkTimelineUltra (some db)).events) : e.score = 0 := by
  have h := load_events_score (db.map Prod.snd)
    { events := [], fingerprints := [], memory := some db } (by simp)
  exact h e he

/-- Witness for C10: a payload persisted with score 0.7 reloads with
score 0. -/
theorem c10_witness : c10event.score = 0 :=
  c10_reload_score_zero c10db c10event (by decide)

end Timeline
